import Mathlib

/-!
Verification of the BLS / DataUSA two-stage data pipeline
(`src/code/pullDataFromApi.py` and `src/code/Report.py`).

The Python source is shallowly embedded: timestamps are `Int` (seconds),
S3 keys and filenames are `String`, numeric data values are `ℚ`, a missing
value is `Option`, and an operation that can raise is `Except String`.
Python string primitives (prefix test, substring test, code-point
comparison, first-occurrence replacement) are re-implemented here by
structural recursion over the character list so that the kernel can
evaluate them.
-/

namespace Pipeline

/-! ### Character-list string primitives (Python `str` operations) -/

/-- Code-point strict comparison of character lists, as Python compares
strings lexicographically by code point. -/
def strLtL : List Char → List Char → Bool
  | [], [] => false
  | [], _ :: _ => true
  | _ :: _, [] => false
  | a :: as, b :: bs =>
    if a.toNat < b.toNat then true
    else if b.toNat < a.toNat then false
    else strLtL as bs

/-- `strLt s t` is Python `s < t` on strings. -/
def strLt (s t : String) : Bool := strLtL s.data t.data

/-- Prefix test on character lists (Python `str.startswith`). -/
def isPrefixL : List Char → List Char → Bool
  | [], _ => true
  | _ :: _, [] => false
  | a :: as, b :: bs => a == b && isPrefixL as bs

/-- `startsWith s pat` is Python `s.startswith(pat)`. -/
def startsWith (s pat : String) : Bool := isPrefixL pat.data s.data

/-- Substring occurrence on character lists (Python `pat in s`). -/
def containsSubL (pat : List Char) : List Char → Bool
  | [] => isPrefixL pat []
  | c :: rest => isPrefixL pat (c :: rest) || containsSubL pat rest

/-- `containsSub s pat` is Python `pat in s` / `str.contains(pat)`. -/
def containsSub (s pat : String) : Bool := containsSubL pat.data s.data

/-- Remove the first occurrence of `pat` from `s`
(Python `s.replace(pat, "", 1)`). -/
def replaceFirstL (pat : List Char) : List Char → List Char
  | [] => []
  | c :: rest =>
    if isPrefixL pat (c :: rest) then (c :: rest).drop pat.length
    else c :: replaceFirstL pat rest

/-- `replaceFirst s pat` is Python `s.replace(pat, "", 1)`. -/
def replaceFirst (s pat : String) : String := ⟨replaceFirstL pat.data s.data⟩

/-- `rstripSlash s` is Python `s.rstrip('/')`: drop every trailing slash. -/
def rstripSlash (s : String) : String :=
  ⟨((s.data.reverse).dropWhile (fun c => c == '/')).reverse⟩

/-! ### Incremental Sync Decider (`should_upload`, pullDataFromApi.py:71-87)

The S3 `head_object` lookup is modelled as an `Option Int`: `none` is the
"404 / NoSuchKey" signal, `some t` is a found object with `LastModified = t`.
Any other S3 failure re-raises in the source and is outside the decision
function's value. The remote timestamp is `Option Int` (`None` in Python when
the listing timestamp failed to parse). -/

/-- Embedding of `should_upload`: first the `head_object` lookup (404 →
upload, reason `new`), then the missing-remote-timestamp check (upload,
reason `no-timestamp`), then the strict timestamp comparison. -/
def should_upload (remoteLastModified : Option Int) (s3LastModified : Option Int) :
    Bool × String :=
  match s3LastModified with
  | none => (true, "new")
  | some s3lm =>
    match remoteLastModified with
    | none => (true, "no-timestamp")
    | some r => if s3lm < r then (true, "updated") else (false, "up-to-date")

/-! ### Ingestion entrypoint (`lambda_handler`, pullDataFromApi.py:362-425)

Each part's execution is an `Except String` value: `Except.error` models an
exception escaping that part's body (caught by the handler's `try/except`),
`Except.ok` a returned summary dict carrying its own `success` flag. -/

/-- Summary dict returned by `sync_bls_to_s3` (Part 1). -/
structure Part1Summary where
  total : Nat
  uploaded : Nat
  skipped : Nat
  moved : Nat
  errors : Nat
  success : Bool
deriving DecidableEq

/-- Summary dict returned by `sync_datausa_to_s3` (Part 2); its own
`try/except` already converts an internal failure into `success = false`. -/
structure Part2Summary where
  success : Bool
  record_count : Nat
deriving DecidableEq

/-- The part-1 `success` flag the handler reads:
`results.get("part1_bls", \x7b\x7d).get("success", False)` — `false` when the
part raised and the handler stored an error dict. -/
def part1Success : Except String Part1Summary → Bool
  | Except.ok r => r.success
  | Except.error _ => false

/-- The part-2 `success` flag the handler reads. -/
def part2Success : Except String Part2Summary → Bool
  | Except.ok r => r.success
  | Except.error _ => false

/-- The handler's structured response (statusCode plus the recorded
per-part outcomes inside the body). -/
structure IngestResponse where
  part1_success : Bool
  part2_success : Bool
  overall_status : String
  statusCode : Nat
deriving DecidableEq

/-- Embedding of `lambda_handler`: run part 1 under `try/except`, then
part 2 under `try/except`, then combine the two `success` flags into
200 / 207 / 500. -/
def lambda_handler (part1 : Except String Part1Summary)
    (part2 : Except String Part2Summary) : IngestResponse :=
  let p1 := part1Success part1
  let p2 := part2Success part2
  if p1 && p2 then ⟨p1, p2, "success", 200⟩
  else if p1 || p2 then ⟨p1, p2, "partial_success", 207⟩
  else ⟨p1, p2, "failed", 500⟩

/-! ### Theorems for the sync decider and the handler -/

/-- C2 counterexample: with the remote timestamp absent AND no object at
the storage key, `should_upload` returns reason `"new"`, not
`"no-timestamp"` — the claim's "regardless of whether an object already
exists" fails. -/
theorem c2_should_upload_counterexample :
    should_upload none none = (true, "new") ∧
    should_upload none none ≠ (true, "no-timestamp") := by
  constructor
  · rfl
  · decide

/-- C2 (amended): when the remote timestamp is absent the decider always
uploads; the reason is `"no-timestamp"` exactly when an object already
exists at the key, and `"new"` when none does. -/
theorem c2_should_upload_no_timestamp (s3 : Option Int) (t : Int) :
    (should_upload none s3).1 = true ∧
    should_upload none (some t) = (true, "no-timestamp") ∧
    should_upload none none = (true, "new") := by
  refine ⟨?_, rfl, rfl⟩
  cases s3 <;> rfl

/-- C3: with both timestamps present, a strictly greater remote timestamp
gives `(upload, "updated")` and an exactly equal pair gives
`(skip, "up-to-date")`. -/
theorem c3_should_upload_updated_and_up_to_date (r s : Int) :
    (s < r → should_upload (some r) (some s) = (true, "updated")) ∧
    (r = s → should_upload (some r) (some s) = (false, "up-to-date")) := by
  constructor
  · intro h
    simp [should_upload, h]
  · intro h
    subst h
    simp [should_upload]

/-- C3 witness: the decision at remote=5/stored=3 and at remote=4/stored=4. -/
theorem c3_should_upload_witness :
    should_upload (some 5) (some 3) = (true, "updated") ∧
    should_upload (some 4) (some 4) = (false, "up-to-date") :=
  ⟨(c3_should_upload_updated_and_up_to_date 5 3).1 (by decide),
   (c3_should_upload_updated_and_up_to_date 4 4).2 rfl⟩

/-- C9: the handler records each part's outcome independently of the other
(an exception in one part is caught, so the other still contributes its
flag), and the statusCode is 200 iff both parts succeeded, 207 iff exactly
one did, and 500 iff both failed. -/
theorem c9_lambda_handler_status (part1 : Except String Part1Summary)
    (part2 : Except String Part2Summary) :
    (lambda_handler part1 part2).part1_success = part1Success part1 ∧
    (lambda_handler part1 part2).part2_success = part2Success part2 ∧
    ((lambda_handler part1 part2).statusCode = 200 ↔
      part1Success part1 = true ∧ part2Success part2 = true) ∧
    ((lambda_handler part1 part2).statusCode = 207 ↔
      xor (part1Success part1) (part2Success part2) = true) ∧
    ((lambda_handler part1 part2).statusCode = 500 ↔
      part1Success part1 = false ∧ part2Success part2 = false) := by
  cases h1 : part1Success part1 <;> cases h2 : part2Success part2 <;>
    simp [lambda_handler, h1, h2]

end Pipeline

namespace Pipeline

/-! ### Population table and Q1 analysis
(`analyze_q1_population_stats`, Report.py:78-105)

A population row carries the `Year` and `Population` columns used by the
analyses. The Python function returns, dynamically, either `None` (empty
table), the string `"No Data"` (no rows in 2013-2018), or a result dict;
`Q1Result` is that union. pandas `.std()` uses the sample (ddof = 1)
formula and yields NaN on a single row, so the embedded result stores the
square of the standard deviation as an `Option ℚ` (`none` = NaN); the
irrational square root itself is related to it in the theorems. -/

/-- One row of the population table. -/
structure PopRow where
  year : Int
  population : ℚ
deriving DecidableEq

/-- Dynamic return value of `analyze_q1_population_stats`. -/
inductive Q1Result where
  | pyNone
  | sentinel (s : String)
  | stats (mean : ℚ) (stdDevSq : Option ℚ) (recordCount : Nat)
deriving DecidableEq

/-- The Q1 year filter: `(pop_data['Year'] >= 2013) & (pop_data['Year'] <= 2018)`. -/
def q1Filtered (popData : List PopRow) : List PopRow :=
  popData.filter (fun r => 2013 ≤ r.year && r.year ≤ 2018)

/-- pandas `.mean()`: sum divided by count. -/
def listMean (xs : List ℚ) : ℚ := xs.sum / xs.length

/-- pandas `.std()` with the default ddof = 1 (Bessel corrected), returned
as its square; `none` models the NaN produced on fewer than two rows. -/
def sampleVarOpt (xs : List ℚ) : Option ℚ :=
  if xs.length < 2 then none
  else some ((xs.map (fun x => (x - listMean xs) ^ 2)).sum / ((xs.length : ℚ) - 1))

/-- Embedding of `analyze_q1_population_stats`. -/
def analyze_q1_population_stats (popData : List PopRow) : Q1Result :=
  if popData.length = 0 then Q1Result.pyNone
  else if (q1Filtered popData).length = 0 then Q1Result.sentinel "No Data"
  else
    Q1Result.stats (listMean ((q1Filtered popData).map (fun r => r.population)))
      (sampleVarOpt ((q1Filtered popData).map (fun r => r.population)))
      (q1Filtered popData).length

/-- C1 counterexample: on an empty population table Q1 returns Python
`None`, which is not the string sentinel "no data available". -/
theorem c1_q1_empty_counterexample :
    analyze_q1_population_stats [] = Q1Result.pyNone ∧
    Q1Result.pyNone ≠ Q1Result.sentinel "no data available" :=
  ⟨rfl, by decide⟩

/-- C1 (amended): Q1 on an empty population table returns `None` — an
absent result, distinct from every string sentinel and from every success
object; the `"No Data"` sentinel only arises from a non-empty table with
no rows in 2013-2018. -/
theorem c1_q1_empty_returns_none :
    analyze_q1_population_stats [] = Q1Result.pyNone ∧
    (∀ s, Q1Result.pyNone ≠ Q1Result.sentinel s) ∧
    (∀ m v c, Q1Result.pyNone ≠ Q1Result.stats m v c) := by
  refine ⟨rfl, ?_, ?_⟩
  · intro s h
    exact Q1Result.noConfusion h
  · intro m v c h
    exact Q1Result.noConfusion h

/-- C6: Q1 keeps exactly the rows with 2013 ≤ Year ≤ 2018, reports their
count, and computes their arithmetic mean and Bessel-corrected (divisor
N−1) sample variance; on the two-row example the result is mean 150,
squared standard deviation 5000 (so the standard deviation is √5000 ≈
70.7106...), record count 2. -/
theorem c6_q1_mean_and_sample_stddev (popData : List PopRow)
    (h2 : 2 ≤ (q1Filtered popData).length) :
    (∀ r ∈ q1Filtered popData, r ∈ popData ∧ 2013 ≤ r.year ∧ r.year ≤ 2018) ∧
    (∀ r ∈ popData, 2013 ≤ r.year → r.year ≤ 2018 → r ∈ q1Filtered popData) ∧
    (∃ m v, analyze_q1_population_stats popData
        = Q1Result.stats m (some v) (q1Filtered popData).length ∧
      ((q1Filtered popData).length : ℚ) * m
        = ((q1Filtered popData).map (fun r => r.population)).sum ∧
      (((q1Filtered popData).length : ℚ) - 1) * v
        = ((q1Filtered popData).map (fun r => (r.population - m) ^ 2)).sum) ∧
    analyze_q1_population_stats [⟨2013, 100⟩, ⟨2014, 200⟩]
      = Q1Result.stats 150 (some 5000) 2 ∧
    (70.7106 : ℝ) < Real.sqrt 5000 ∧ Real.sqrt 5000 < (70.7107 : ℝ) := by
  have hfl : (q1Filtered popData).length ≠ 0 := by omega
  have hle : (q1Filtered popData).length ≤ popData.length :=
    List.length_filter_le _ _
  have hpop : popData.length ≠ 0 := by omega
  have hn0 : ((q1Filtered popData).length : ℚ) ≠ 0 := by
    exact_mod_cast hfl
  have hn1 : (((q1Filtered popData).length : ℚ) - 1) ≠ 0 := by
    have h2q : (2 : ℚ) ≤ ((q1Filtered popData).length : ℚ) := by exact_mod_cast h2
    intro h
    rw [sub_eq_zero] at h
    rw [h] at h2q
    norm_num at h2q
  refine ⟨?_, ?_, ?_, ?_, ?_, ?_⟩
  · intro r hr
    have := List.mem_filter.1 hr
    simpa using this
  · intro r hr ha hb
    refine List.mem_filter.2 ⟨hr, ?_⟩
    simp [ha, hb]
  · refine ⟨listMean ((q1Filtered popData).map (fun r => r.population)),
      ((((q1Filtered popData).map (fun r => r.population)).map
          (fun x => (x - listMean ((q1Filtered popData).map (fun r => r.population))) ^ 2)).sum
        / ((((q1Filtered popData).map (fun r => r.population)).length : ℚ) - 1)), ?_, ?_, ?_⟩
    · unfold analyze_q1_population_stats
      rw [if_neg hpop, if_neg hfl]
      unfold sampleVarOpt
      rw [if_neg (by rw [List.length_map]; omega)]
    · rw [listMean, List.length_map]
      field_simp
    · rw [List.length_map, List.map_map]
      rw [mul_comm, div_mul_cancel₀ _ hn1]
      rfl
  · unfold analyze_q1_population_stats q1Filtered sampleVarOpt
    norm_num [listMean]
  · rw [show (70.7106 : ℝ) = 707106 / 10000 by norm_num]
    rw [Real.lt_sqrt (by positivity)]
    norm_num
  · rw [show (70.7107 : ℝ) = 707107 / 10000 by norm_num]
    rw [Real.sqrt_lt' (by positivity)]
    norm_num

/-- C6 witness: the theorem applied to the two-row example table. -/
theorem c6_q1_witness :
    analyze_q1_population_stats [⟨2013, 100⟩, ⟨2014, 200⟩]
      = Q1Result.stats 150 (some 5000) 2 := by
  have h := c6_q1_mean_and_sample_stddev [⟨2013, 100⟩, ⟨2014, 200⟩] (by decide)
  exact h.2.2.2.1

end Pipeline

namespace Pipeline

/-! ### BLS table and Q3 analysis
(`analyze_q3_series_with_population`, Report.py:135-187)

A BLS row carries the four columns the analyses use (`footnote_codes` is
dropped at load time). Q3 filters to rows whose `series_id` contains the
substring "PRS30006032" with `period == "Q01"`, then — when population
data exists — left-joins on `year = Year`. A merged row's `population` is
an `Option ℚ`: `none` models the null produced when the left join finds
no matching population year. The BLS-only payload (`Q3Result.blsOnly`)
carries plain `BlsRow`s, which structurally have no population field. -/

/-- One cleaned row of the BLS table. -/
structure BlsRow where
  series_id : String
  year : Int
  period : String
  value : ℚ
deriving DecidableEq

/-- One row of the Q3 left-join result. -/
structure MergedRow where
  series_id : String
  year : Int
  period : String
  value : ℚ
  population : Option ℚ
deriving DecidableEq

/-- Dynamic return value of `analyze_q3_series_with_population`. -/
inductive Q3Result where
  | pyNone
  | blsOnly (record_count : Nat) (data : List BlsRow)
  | mergeError (msg : String)
  | merged (record_count : Nat) (year_range : Int × Int) (data : List MergedRow)
deriving DecidableEq

/-- The Q3 filter:
`series_id.str.contains('PRS30006032') & (period == 'Q01')`. -/
def q3Filter (blsData : List BlsRow) : List BlsRow :=
  blsData.filter (fun r => containsSub r.series_id "PRS30006032" && r.period == "Q01")

/-- The merged rows one left row contributes: one per matching population
row, or a single row with a null population when no year matches. -/
def mergeRowsFor (r : BlsRow) (popData : List PopRow) : List MergedRow :=
  match popData.filter (fun p => p.year == r.year) with
  | [] => [⟨r.series_id, r.year, r.period, r.value, none⟩]
  | p :: ps =>
    (p :: ps).map (fun q => ⟨r.series_id, r.year, r.period, r.value, some q.population⟩)

/-- pandas left merge of the filtered rows against `pop_data[['Year','Population']]`
on `year = Year`. -/
def leftMerge (left : List BlsRow) (popData : List PopRow) : List MergedRow :=
  left.flatMap (fun r => mergeRowsFor r popData)

/-- `final_report['year'].min()` over a non-empty frame. -/
def minYear : List MergedRow → Int
  | [] => 0
  | r :: rest => (rest.map (fun x => x.year)).foldl min r.year

/-- `final_report['year'].max()` over a non-empty frame. -/
def maxYear : List MergedRow → Int
  | [] => 0
  | r :: rest => (rest.map (fun x => x.year)).foldl max r.year

/-- The merged frame after `sort_values('year')`, modelled with a
stable insertion sort on the year column. -/
def q3Merged (blsData : List BlsRow) (popData : List PopRow) : List MergedRow :=
  List.insertionSort (fun a b => a.year ≤ b.year) (leftMerge (q3Filter blsData) popData)

/-- Embedding of `analyze_q3_series_with_population`. -/
def analyze_q3_series_with_population (blsData : List BlsRow) (popData : List PopRow) :
    Q3Result :=
  if (q3Filter blsData).length = 0 then Q3Result.pyNone
  else if popData.length = 0 then
    Q3Result.blsOnly (q3Filter blsData).length (q3Filter blsData)
  else if (q3Merged blsData popData).length = 0 then
    Q3Result.mergeError "No matching data after merge with population"
  else
    Q3Result.merged (q3Merged blsData popData).length
      (minYear (q3Merged blsData popData), maxYear (q3Merged blsData popData))
      (q3Merged blsData popData)

/-- One left row contributes at least one merged row. -/
theorem mergeRowsFor_length_pos (r : BlsRow) (popData : List PopRow) :
    1 ≤ (mergeRowsFor r popData).length := by
  unfold mergeRowsFor
  split
  · simp
  · simp

/-- Each left row contributes at least one merged row, so the left merge
has at least as many rows as its left input. -/
theorem leftMerge_length_ge (left : List BlsRow) (popData : List PopRow) :
    left.length ≤ (leftMerge left popData).length := by
  induction left with
  | nil => simp [leftMerge]
  | cons r rest ih =>
    rw [leftMerge, List.flatMap_cons, List.length_append]
    rw [leftMerge] at ih
    have hone := mergeRowsFor_length_pos r popData
    simp only [List.length_cons]
    omega

/-- C7: when the filtered BLS set is non-empty and the population table is
empty, Q3 returns the BLS-only payload: its record count is exactly the
number of filtered rows, its data is exactly the filtered rows (whose type
has no population field), and every row of it matches the series/period
filter. -/
theorem c7_q3_bls_only_payload (blsData : List BlsRow) (popData : List PopRow)
    (hne : (q3Filter blsData).length ≠ 0) (hpop : popData = []) :
    analyze_q3_series_with_population blsData popData
      = Q3Result.blsOnly (q3Filter blsData).length (q3Filter blsData) ∧
    (∀ r ∈ q3Filter blsData,
      containsSub r.series_id "PRS30006032" = true ∧ r.period = "Q01") := by
  subst hpop
  constructor
  · unfold analyze_q3_series_with_population
    rw [if_neg hne]
    simp
  · intro r hr
    have h := List.mem_filter.1 hr
    have h2 := h.2
    simp only [Bool.and_eq_true, beq_iff_eq] at h2
    exact h2

/-- C7 witness: one matching BLS row against the empty population table. -/
theorem c7_q3_bls_only_witness :
    analyze_q3_series_with_population [⟨"PRS30006032", 2019, "Q01", 5⟩] []
      = Q3Result.blsOnly 1 [⟨"PRS30006032", 2019, "Q01", 5⟩] := by
  have h := c7_q3_bls_only_payload [⟨"PRS30006032", 2019, "Q01", 5⟩] []
    (by decide) rfl
  exact h.1

/-- C10 (implicit): with a non-empty filtered BLS set and a non-empty
population table, the left join yields at least as many rows as the
filtered set, so the post-merge emptiness check is unreachable and Q3
never returns the merge-error payload. -/
theorem c10_q3_merge_error_unreachable (blsData : List BlsRow) (popData : List PopRow)
    (hne : (q3Filter blsData).length ≠ 0) (hpop : popData.length ≠ 0) :
    (q3Filter blsData).length ≤ (leftMerge (q3Filter blsData) popData).length ∧
    (∀ msg, analyze_q3_series_with_population blsData popData ≠ Q3Result.mergeError msg) := by
  refine ⟨leftMerge_length_ge _ _, ?_⟩
  intro msg
  unfold analyze_q3_series_with_population
  rw [if_neg hne, if_neg hpop]
  have hlen : (q3Merged blsData popData).length
      = (leftMerge (q3Filter blsData) popData).length :=
    (List.perm_insertionSort _ _).length_eq
  have hge := leftMerge_length_ge (q3Filter blsData) popData
  rw [if_neg (by omega)]
  intro h
  exact Q3Result.noConfusion h

/-- C10 witness: one matching BLS row and one population row. -/
theorem c10_q3_merge_error_witness :
    analyze_q3_series_with_population [⟨"PRS30006032", 2019, "Q01", 5⟩] [⟨2019, 100⟩]
      ≠ Q3Result.mergeError "No matching data after merge with population" := by
  have h := c10_q3_merge_error_unreachable [⟨"PRS30006032", 2019, "Q01", 5⟩] [⟨2019, 100⟩]
    (by decide) (by decide)
  exact h.2 "No matching data after merge with population"

end Pipeline

namespace Pipeline

/-! ### Orphan Archiver (`sync_bls_to_s3`, pullDataFromApi.py:126-192)

The S3 listing under the live prefix is turned into tracked filenames
exactly as the source does: keys under `prefix + "deleted/"` are skipped,
the prefix is removed with `key.replace(prefix, "", 1)`, and only
non-empty names without a path separator are kept. Orphans are the
tracked names not discovered remotely. The archive loop is modelled as
the sequence of S3 requests it issues: for each orphan a `copy_object`
to the archive key and, only if that copy succeeded (`copyOk`), a
`delete_object` of the live key. -/

/-- An S3 mutation request issued by the archive loop. -/
inductive S3Op where
  | copy (src dst : String)
  | delete (key : String)
deriving DecidableEq

/-- The `s3_files` filenames tracked for deletion (pullDataFromApi.py:129-138). -/
def trackedFiles (pfx : String) (listedKeys : List String) : List String :=
  listedKeys.filterMap (fun key =>
    if startsWith key (pfx ++ "deleted/") then none
    else if !(replaceFirst key pfx == "") && !(containsSub (replaceFirst key pfx) "/") then
      some (replaceFirst key pfx)
    else none)

/-- `orphaned_files = [f for f in s3_files if f not in bls_file_names]`. -/
def orphanedFiles (pfx : String) (listedKeys remoteNames : List String) : List String :=
  (trackedFiles pfx listedKeys).filter (fun f => !(remoteNames.contains f))

/-- The request sequence of the archive loop (pullDataFromApi.py:175-192):
copy to `prefix + "deleted/" + filename`, then delete the live key —
skipped when the copy raised. -/
def archiveOps (pfx : String) (copyOk : String → Bool) : List String → List S3Op
  | [] => []
  | f :: rest =>
    (if copyOk (pfx ++ f) then
      [S3Op.copy (pfx ++ f) (pfx ++ "deleted/" ++ f), S3Op.delete (pfx ++ f)]
    else
      [S3Op.copy (pfx ++ f) (pfx ++ "deleted/" ++ f)]) ++ archiveOps pfx copyOk rest

/-- `isArchiveCopy pfx (src, dst)` holds when `dst` is the archive key of
the live key `src` under `pfx`. -/
def isArchiveCopy (pfx : String) (p : String × String) : Bool :=
  startsWith p.1 pfx && p.2 == pfx ++ "deleted/" ++ replaceFirst p.1 pfx

/-- Scan a request sequence, accumulating the copies issued so far, and
check that every delete targets a key already copied into the archive. -/
def deletesAfterArchive (pfx : String) : List (String × String) → List S3Op → Bool
  | _, [] => true
  | copied, S3Op.copy src dst :: rest =>
    deletesAfterArchive pfx ((src, dst) :: copied) rest
  | copied, S3Op.delete k :: rest =>
    copied.any (fun p => p.1 == k && isArchiveCopy pfx p) &&
      deletesAfterArchive pfx copied rest

/-- A list is a prefix of itself followed by anything. -/
theorem isPrefixL_self_append (l r : List Char) : isPrefixL l (l ++ r) = true := by
  induction l with
  | nil => rfl
  | cons a as ih => simp [isPrefixL, ih]

/-- `startsWith` holds for any extension of the pattern. -/
theorem startsWith_append (p rest : String) : startsWith (p ++ rest) p = true := by
  unfold startsWith
  rw [String.data_append]
  exact isPrefixL_self_append p.data rest.data

/-- Removing the first occurrence of a leading pattern drops exactly it. -/
theorem replaceFirstL_self_append (p rest : List Char) :
    replaceFirstL p (p ++ rest) = rest := by
  cases p with
  | nil =>
    cases rest with
    | nil => rfl
    | cons c r =>
      rw [List.nil_append, replaceFirstL]
      simp [isPrefixL]
  | cons a as =>
    rw [List.cons_append, replaceFirstL]
    rw [if_pos (by rw [← List.cons_append]; exact isPrefixL_self_append (a :: as) rest)]
    rw [← List.cons_append, List.drop_left]

/-- `replaceFirst` on a string that starts with the pattern drops it. -/
theorem replaceFirst_self_append (p rest : String) :
    replaceFirst (p ++ rest) p = rest := by
  unfold replaceFirst
  rw [String.data_append, replaceFirstL_self_append]

/-- Every delete issued by the archive loop is preceded by the successful
copy of the same live key to its archive key, whatever the starting
accumulator. -/
theorem archiveOps_deletesAfterArchive (pfx : String) (copyOk : String → Bool)
    (orphans : List String) (copied : List (String × String)) :
    deletesAfterArchive pfx copied (archiveOps pfx copyOk orphans) = true := by
  induction orphans generalizing copied with
  | nil => rfl
  | cons f rest ih =>
    rw [archiveOps]
    by_cases h : copyOk (pfx ++ f) = true
    · rw [if_pos h, List.cons_append, List.cons_append, List.nil_append]
      rw [deletesAfterArchive, deletesAfterArchive]
      rw [Bool.and_eq_true]
      refine ⟨?_, ih _⟩
      rw [List.any_cons, Bool.or_eq_true]
      left
      simp only [Bool.and_eq_true, beq_iff_eq]
      refine ⟨trivial, ?_⟩
      unfold isArchiveCopy
      simp only [Bool.and_eq_true, beq_iff_eq]
      exact ⟨startsWith_append pfx f, by rw [replaceFirst_self_append]⟩
    · rw [if_neg h, List.cons_append, List.nil_append]
      rw [deletesAfterArchive]
      exact ih _

/-- C4: the archiver selects exactly `storedNames − remoteNames`, where a
key under the archive sub-path contributes nothing to the tracked names
(re-running on its own output re-selects nothing), and every delete it
issues is preceded by the copy of that live key to the archive sub-path. -/
theorem c4_orphan_archiver (pfx : String) (listedKeys remoteNames : List String)
    (f : String) (copyOk : String → Bool) :
    (f ∈ orphanedFiles pfx listedKeys remoteNames ↔
      f ∈ trackedFiles pfx listedKeys ∧ f ∉ remoteNames) ∧
    trackedFiles pfx ((pfx ++ "deleted/" ++ f) :: listedKeys)
      = trackedFiles pfx listedKeys ∧
    deletesAfterArchive pfx []
      (archiveOps pfx copyOk (orphanedFiles pfx listedKeys remoteNames)) = true := by
  refine ⟨?_, ?_, archiveOps_deletesAfterArchive pfx copyOk _ []⟩
  · unfold orphanedFiles
    rw [List.mem_filter]
    simp
  · unfold trackedFiles
    rw [List.filterMap_cons_none]
    rw [if_pos]
    exact startsWith_append (pfx ++ "deleted/") f

end Pipeline

namespace Pipeline

/-! ### Q2 analysis (`analyze_q2_best_years`, Report.py:108-132)

pandas `groupby(['series_id','year'])['value'].sum().reset_index()` produces
one row per distinct `(series_id, year)` pair, sorted ascending by the key
(strings compared by code point), each carrying the sum of `value` over the
group. `idxmax` per `series_id` then picks, inside each series' block of
that table, the first row attaining the maximal sum; the final frame is
sorted ascending by `series_id`. -/

/-- The key of a BLS row in the Q2 grouping. -/
def rowKey (r : BlsRow) : String × Int := (r.series_id, r.year)

/-- pandas ordering on group keys: series ascending by code point, then
year ascending. -/
def keyLe (a b : String × Int) : Prop :=
  strLt a.1 b.1 = true ∨ (a.1 = b.1 ∧ a.2 ≤ b.2)

instance keyLe.instDecidableRel : DecidableRel keyLe := fun a b => by
  unfold keyLe
  infer_instance

/-- The sorted list of distinct group keys of the grouped-and-summed table. -/
def q2Keys (rows : List BlsRow) : List (String × Int) :=
  List.insertionSort keyLe ((rows.map rowKey).dedup)

/-- The summed `value` of one group. -/
def q2GroupSum (rows : List BlsRow) (s : String) (y : Int) : ℚ :=
  ((rows.filter (fun r => r.series_id == s && r.year == y)).map (fun r => r.value)).sum

/-- The grouped-and-summed table `yearly_sums` (Report.py:117). -/
def yearly_sums (rows : List BlsRow) : List (String × Int × ℚ) :=
  (q2Keys rows).map (fun k => (k.1, k.2, q2GroupSum rows k.1 k.2))

/-- A series' block of the grouped table, projected to `(year, sum)`,
in the grouped table's order. -/
def seriesRows (rows : List BlsRow) (s : String) : List (Int × ℚ) :=
  ((yearly_sums rows).filter (fun t => t.1 == s)).map (fun t => (t.2.1, t.2.2))

/-- The distinct series ids, in the grouped table's (ascending) order. -/
def q2SeriesIds (rows : List BlsRow) : List String :=
  ((yearly_sums rows).map (fun t => t.1)).dedup

/-- pandas `idxmax`: the first entry attaining the maximal second
component, scanning left to right. -/
def firstMax : List (Int × ℚ) → Option (Int × ℚ)
  | [] => none
  | x :: rest =>
    match firstMax rest with
    | none => some x
    | some m => if m.2 ≤ x.2 then some x else some m

/-- The `best_years` frame: per series (ascending), the first maximal
`(year, value)` of its block. -/
def best_years (rows : List BlsRow) : List (String × Int × ℚ) :=
  (q2SeriesIds rows).filterMap (fun s =>
    match firstMax (seriesRows rows s) with
    | some m => some (s, m.1, m.2)
    | none => none)

/-- Dynamic return value of `analyze_q2_best_years`. -/
inductive Q2Result where
  | sentinel (s : String)
  | report (total_series : Nat) (best : List (String × Int × ℚ))
deriving DecidableEq

/-- Embedding of `analyze_q2_best_years`. -/
def analyze_q2_best_years (rows : List BlsRow) : Q2Result :=
  if rows.length = 0 then Q2Result.sentinel "No BLS data available"
  else Q2Result.report (best_years rows).length (best_years rows)

/-! Ordering facts for the code-point comparison and the group-key order. -/

/-- Characters with equal code points are equal. -/
theorem charEq_of_toNat_eq {a b : Char} (h : a.toNat = b.toNat) : a = b := by
  apply Char.ext
  exact UInt32.toNat.inj h

/-- The code-point comparison is irreflexive. -/
theorem strLtL_irrefl (a : List Char) : strLtL a a = false := by
  induction a with
  | nil => rfl
  | cons c cs ih => rw [strLtL]; simp [ih]

/-- Unfolding of the code-point comparison on two non-empty lists. -/
theorem strLtL_cons_iff {x y : Char} {xs ys : List Char} :
    strLtL (x :: xs) (y :: ys) = true ↔
      (x.toNat < y.toNat ∨ (x.toNat = y.toNat ∧ strLtL xs ys = true)) := by
  rw [strLtL]
  by_cases h1 : x.toNat < y.toNat
  · simp [h1]
  · by_cases h2 : y.toNat < x.toNat
    · rw [if_neg h1, if_pos h2]
      constructor
      · intro hf
        simp at hf
      · rintro (hlt | ⟨he, _⟩)
        · omega
        · omega
    · rw [if_neg h1, if_neg h2]
      constructor
      · intro h
        exact Or.inr ⟨by omega, h⟩
      · rintro (hlt | ⟨he, h⟩)
        · omega
        · exact h

/-- The code-point comparison is transitive. -/
theorem strLtL_trans {a b c : List Char} (h1 : strLtL a b = true)
    (h2 : strLtL b c = true) : strLtL a c = true := by
  induction a generalizing b c with
  | nil =>
    cases b with
    | nil => simp [strLtL] at h1
    | cons y ys =>
      cases c with
      | nil => simp [strLtL] at h2
      | cons z zs => rfl
  | cons x xs ih =>
    cases b with
    | nil => simp [strLtL] at h1
    | cons y ys =>
      cases c with
      | nil => simp [strLtL] at h2
      | cons z zs =>
        rw [strLtL_cons_iff] at h1 h2 ⊢
        rcases h1 with hlt1 | ⟨he1, hr1⟩
        · rcases h2 with hlt2 | ⟨he2, hr2⟩
          · left; omega
          · left; omega
        · rcases h2 with hlt2 | ⟨he2, hr2⟩
          · left; omega
          · exact Or.inr ⟨by omega, ih hr1 hr2⟩

/-- The code-point comparison is trichotomous. -/
theorem strLtL_total (a : List Char) : ∀ b, strLtL a b = true ∨ a = b ∨ strLtL b a = true := by
  induction a with
  | nil =>
    intro b
    cases b with
    | nil => right; left; rfl
    | cons y ys => left; rfl
  | cons x xs ih =>
    intro b
    cases b with
    | nil => right; right; rfl
    | cons y ys =>
      rcases Nat.lt_trichotomy x.toNat y.toNat with h | h | h
      · left; rw [strLtL]; simp [h]
      · have hxy : x = y := charEq_of_toNat_eq h
        subst hxy
        rcases ih ys with h2 | h2 | h2
        · left; rw [strLtL]; simp [h2]
        · right; left; rw [h2]
        · right; right; rw [strLtL]; simp [h2]
      · right; right; rw [strLtL]; simp [h]

instance : IsTrans (String × Int) keyLe := by
  constructor
  intro a b c hab hbc
  rcases hab with h1 | ⟨e1, le1⟩
  · rcases hbc with h2 | ⟨e2, le2⟩
    · exact Or.inl (strLtL_trans h1 h2)
    · left; rw [← e2]; exact h1
  · rcases hbc with h2 | ⟨e2, le2⟩
    · left; rw [e1]; exact h2
    · exact Or.inr ⟨e1.trans e2, le_trans le1 le2⟩

instance : IsTotal (String × Int) keyLe := by
  constructor
  intro a b
  rcases strLtL_total a.1.data b.1.data with h | h | h
  · exact Or.inl (Or.inl h)
  · have he : a.1 = b.1 := String.ext h
    rcases Int.le_total a.2 b.2 with h2 | h2
    · exact Or.inl (Or.inr ⟨he, h2⟩)
    · exact Or.inr (Or.inr ⟨he.symm, h2⟩)
  · exact Or.inr (Or.inl h)

end Pipeline

namespace Pipeline

/-! Structural facts about the grouped-and-summed table. -/

/-- The grouped keys are sorted ascending by (series, year). -/
theorem q2Keys_sorted (rows : List BlsRow) : List.Sorted keyLe (q2Keys rows) :=
  List.sorted_insertionSort keyLe _

/-- The grouped keys are exactly the keys occurring in the input. -/
theorem q2Keys_mem (rows : List BlsRow) (k : String × Int) :
    k ∈ q2Keys rows ↔ k ∈ rows.map rowKey := by
  unfold q2Keys
  rw [(List.perm_insertionSort keyLe _).mem_iff, List.mem_dedup]

/-- An entry of `yearly_sums` is a key of the input together with its
group sum, and conversely. -/
theorem yearly_sums_mem (rows : List BlsRow) (t : String × Int × ℚ) :
    t ∈ yearly_sums rows ↔
      (t.1, t.2.1) ∈ rows.map rowKey ∧ t.2.2 = q2GroupSum rows t.1 t.2.1 := by
  unfold yearly_sums
  rw [List.mem_map]
  constructor
  · rintro ⟨k, hk, rfl⟩
    exact ⟨(q2Keys_mem rows k).1 hk, rfl⟩
  · rintro ⟨hm, hv⟩
    refine ⟨(t.1, t.2.1), (q2Keys_mem rows _).2 hm, ?_⟩
    obtain ⟨s, y, v⟩ := t
    simp only at hv ⊢
    rw [← hv]

/-- `yearly_sums` is sorted ascending by (series, year). -/
theorem yearly_sums_sorted (rows : List BlsRow) :
    List.Pairwise (fun a b : String × Int × ℚ => keyLe (a.1, a.2.1) (b.1, b.2.1))
      (yearly_sums rows) := by
  unfold yearly_sums
  rw [List.pairwise_map]
  exact q2Keys_sorted rows

/-- Within one series' block, years are ascending. -/
theorem seriesRows_sorted (rows : List BlsRow) (s : String) :
    List.Pairwise (fun a b : Int × ℚ => a.1 ≤ b.1) (seriesRows rows s) := by
  unfold seriesRows
  rw [List.pairwise_map]
  have hf : List.Pairwise (fun a b : String × Int × ℚ => keyLe (a.1, a.2.1) (b.1, b.2.1))
      ((yearly_sums rows).filter (fun t => t.1 == s)) :=
    (yearly_sums_sorted rows).filter _
  refine List.Pairwise.imp_of_mem ?_ hf
  intro a b ha hb hk
  have has : a.1 = s := by
    have := (List.mem_filter.1 ha).2
    simpa using this
  have hbs : b.1 = s := by
    have := (List.mem_filter.1 hb).2
    simpa using this
  rcases hk with hlt | ⟨he, hy⟩
  · exfalso
    rw [has, hbs] at hlt
    unfold strLt at hlt
    rw [strLtL_irrefl] at hlt
    exact Bool.false_ne_true hlt
  · exact hy

/-- The distinct series ids occurring in the grouped table. -/
theorem q2SeriesIds_mem (rows : List BlsRow) (s : String) :
    s ∈ q2SeriesIds rows ↔ ∃ t ∈ yearly_sums rows, t.1 = s := by
  unfold q2SeriesIds
  rw [List.mem_dedup, List.mem_map]

/-- The distinct series ids are strictly ascending. -/
theorem q2SeriesIds_pairwise (rows : List BlsRow) :
    List.Pairwise (fun a b : String => strLt a b = true) (q2SeriesIds rows) := by
  unfold q2SeriesIds
  have hsorted : List.Pairwise (fun a b : String => strLt a b = true ∨ a = b)
      ((yearly_sums rows).map (fun t => t.1)) := by
    rw [List.pairwise_map]
    refine List.Pairwise.imp ?_ (yearly_sums_sorted rows)
    intro a b hk
    rcases hk with hlt | ⟨he, _⟩
    · exact Or.inl hlt
    · exact Or.inr he
  have hd : List.Pairwise (fun a b : String => strLt a b = true ∨ a = b)
      (((yearly_sums rows).map (fun t => t.1)).dedup) :=
    List.Pairwise.sublist (List.dedup_sublist _) hsorted
  have hnd : List.Pairwise (fun a b : String => a ≠ b)
      (((yearly_sums rows).map (fun t => t.1)).dedup) :=
    List.nodup_dedup _
  refine List.Pairwise.imp ?_ (hd.and hnd)
  intro a b hab
  rcases hab with ⟨hle | he, hne⟩
  · exact hle
  · exact absurd he hne

/-! Facts about `firstMax` (pandas `idxmax`). -/

/-- `firstMax` is `none` exactly on the empty list. -/
theorem firstMax_eq_none_iff (l : List (Int × ℚ)) : firstMax l = none ↔ l = [] := by
  cases l with
  | nil => simp [firstMax]
  | cons x rest =>
    rw [firstMax]
    cases h : firstMax rest with
    | none => simp
    | some m => by_cases hc : m.2 ≤ x.2 <;> simp [hc]

/-- The selected entry is an entry of the list. -/
theorem firstMax_mem : ∀ {l : List (Int × ℚ)} {m}, firstMax l = some m → m ∈ l := by
  intro l
  induction l with
  | nil =>
    intro m h
    simp [firstMax] at h
  | cons x rest ih =>
    intro m h
    rw [firstMax] at h
    cases hr : firstMax rest with
    | none =>
      rw [hr] at h
      simp at h
      rw [← h]
      exact List.mem_cons_self x rest
    | some m2 =>
      rw [hr] at h
      by_cases hc : m2.2 ≤ x.2
      · simp [hc] at h
        rw [← h]
        exact List.mem_cons_self x rest
      · simp [hc] at h
        rw [← h]
        exact List.mem_cons_of_mem x (ih hr)

/-- The selected entry attains the maximum of the second components. -/
theorem firstMax_is_max : ∀ {l : List (Int × ℚ)} {m}, firstMax l = some m →
    ∀ z ∈ l, z.2 ≤ m.2 := by
  intro l
  induction l with
  | nil =>
    intro m h
    simp [firstMax] at h
  | cons a rest ih =>
    intro m h z hz
    rw [firstMax] at h
    cases hr : firstMax rest with
    | none =>
      rw [hr] at h
      simp at h
      have hre : rest = [] := (firstMax_eq_none_iff rest).1 hr
      subst hre
      simp at hz
      rw [hz, ← h]
    | some m2 =>
      rw [hr] at h
      by_cases hc : m2.2 ≤ a.2
      · simp [hc] at h
        rcases List.mem_cons.1 hz with hz1 | hz2
        · rw [hz1, ← h]
        · rw [← h]
          exact le_trans (ih hr z hz2) hc
      · simp [hc] at h
        rcases List.mem_cons.1 hz with hz1 | hz2
        · rw [hz1, ← h]
          exact le_of_not_le hc
        · rw [← h]
          exact ih hr z hz2

/-- On a list ascending in the first component, the selected entry comes
no later than any other entry attaining the same maximal value — ties are
broken by the first row of the block. -/
theorem firstMax_first : ∀ {l : List (Int × ℚ)},
    List.Pairwise (fun a b : Int × ℚ => a.1 ≤ b.1) l →
    ∀ {m}, firstMax l = some m → ∀ z ∈ l, z.2 = m.2 → m.1 ≤ z.1 := by
  intro l
  induction l with
  | nil =>
    intro _ m h
    simp [firstMax] at h
  | cons a rest ih =>
    intro hs m h z hz hze
    obtain ⟨hhead, hrest⟩ := List.pairwise_cons.1 hs
    rw [firstMax] at h
    cases hr : firstMax rest with
    | none =>
      rw [hr] at h
      simp at h
      have hre : rest = [] := (firstMax_eq_none_iff rest).1 hr
      subst hre
      simp at hz
      rw [hz, ← h]
    | some m2 =>
      rw [hr] at h
      by_cases hc : m2.2 ≤ a.2
      · simp [hc] at h
        rcases List.mem_cons.1 hz with hz1 | hz2
        · rw [← h, hz1]
        · rw [← h]
          exact hhead z hz2
      · simp [hc] at h
        rcases List.mem_cons.1 hz with hz1 | hz2
        · exfalso
          rw [hz1] at hze
          rw [← h] at hze
          exact hc (le_of_eq hze.symm)
        · rw [← h]
          exact ih hrest hr z hz2 (by rw [hze, ← h])

/-- Decomposition of an entry of `best_years`. -/
theorem best_years_mem {rows : List BlsRow} {e : String × Int × ℚ}
    (he : e ∈ best_years rows) :
    e.1 ∈ q2SeriesIds rows ∧ firstMax (seriesRows rows e.1) = some (e.2.1, e.2.2) := by
  unfold best_years at he
  rw [List.mem_filterMap] at he
  obtain ⟨s, hs, hf⟩ := he
  cases hm : firstMax (seriesRows rows s) with
  | none =>
    rw [hm] at hf
    simp at hf
  | some m =>
    rw [hm] at hf
    have hf2 : (s, m.1, m.2) = e := by simpa using hf
    subst hf2
    exact ⟨hs, by rw [hm]⟩

end Pipeline

namespace Pipeline

/-- The three-row example from the specification. -/
def q2ExampleRows : List BlsRow :=
  [⟨"S1", 2019, "Q1", 10⟩, ⟨"S1", 2019, "Q2", 20⟩, ⟨"S1", 2020, "Q1", 5⟩]

/-- C5: Q2 groups BLS rows by (series_id, year) and sums `value` — the
grouped table holds exactly the keys occurring in the input, each with its
group sum; per series it selects a (year, value) pair whose value is that
year's group sum and is maximal among the series' group sums, ties going
to the first row of the series' block in the grouped table's ascending
order (the smallest year); every input series appears; the output is
sorted strictly ascending by series_id; and on the three-row example the
best year for S1 is 2019 with summed value 30. -/
theorem c5_q2_best_years (rows : List BlsRow) (hne : rows.length ≠ 0) :
    analyze_q2_best_years rows
      = Q2Result.report (best_years rows).length (best_years rows) ∧
    (∀ t ∈ yearly_sums rows,
      (t.1, t.2.1) ∈ rows.map rowKey ∧ t.2.2 = q2GroupSum rows t.1 t.2.1) ∧
    (∀ s y, (s, y) ∈ rows.map rowKey →
      (s, y, q2GroupSum rows s y) ∈ yearly_sums rows) ∧
    (∀ e ∈ best_years rows,
      (e.1, e.2.1) ∈ rows.map rowKey ∧
      e.2.2 = q2GroupSum rows e.1 e.2.1 ∧
      (∀ y, (e.1, y) ∈ rows.map rowKey → q2GroupSum rows e.1 y ≤ e.2.2) ∧
      (∀ y, (e.1, y) ∈ rows.map rowKey → q2GroupSum rows e.1 y = e.2.2 → e.2.1 ≤ y)) ∧
    (∀ r ∈ rows, ∃ y v, (r.series_id, y, v) ∈ best_years rows) ∧
    List.Pairwise (fun a b : String × Int × ℚ => strLt a.1 b.1 = true) (best_years rows) ∧
    analyze_q2_best_years q2ExampleRows = Q2Result.report 1 [("S1", 2019, 30)] := by
  have hsr_mem : ∀ (s : String) (y : Int), (s, y) ∈ rows.map rowKey →
      (y, q2GroupSum rows s y) ∈ seriesRows rows s := by
    intro s y hm
    unfold seriesRows
    rw [List.mem_map]
    refine ⟨(s, y, q2GroupSum rows s y), ?_, rfl⟩
    rw [List.mem_filter]
    refine ⟨(yearly_sums_mem rows _).2 ⟨hm, rfl⟩, ?_⟩
    simp
  refine ⟨?_, ?_, ?_, ?_, ?_, ?_, ?_⟩
  · unfold analyze_q2_best_years
    rw [if_neg hne]
  · intro t ht
    exact (yearly_sums_mem rows t).1 ht
  · intro s y hm
    exact (yearly_sums_mem rows _).2 ⟨hm, rfl⟩
  · intro e he
    obtain ⟨hs, hm⟩ := best_years_mem he
    have hmm := firstMax_mem hm
    unfold seriesRows at hmm
    rw [List.mem_map] at hmm
    obtain ⟨t, htf, hteq⟩ := hmm
    rw [List.mem_filter] at htf
    obtain ⟨hty, hts⟩ := htf
    have hts2 : t.1 = e.1 := by simpa using hts
    obtain ⟨hkey, hval⟩ := (yearly_sums_mem rows t).1 hty
    have h1 : t.2.1 = e.2.1 := congrArg Prod.fst hteq
    have h2 : t.2.2 = e.2.2 := congrArg Prod.snd hteq
    refine ⟨?_, ?_, ?_, ?_⟩
    · rw [← hts2, ← h1]
      exact hkey
    · rw [← h2, ← hts2, ← h1]
      exact hval
    · intro y hy
      exact firstMax_is_max hm _ (hsr_mem e.1 y hy)
    · intro y hy heq
      exact firstMax_first (seriesRows_sorted rows e.1) hm _ (hsr_mem e.1 y hy) heq
  · intro r hr
    have hkey : (r.series_id, r.year) ∈ rows.map rowKey := List.mem_map.2 ⟨r, hr, rfl⟩
    have hsr := hsr_mem r.series_id r.year hkey
    have hsid : r.series_id ∈ q2SeriesIds rows := by
      rw [q2SeriesIds_mem]
      exact ⟨(r.series_id, r.year, q2GroupSum rows r.series_id r.year),
        (yearly_sums_mem rows _).2 ⟨hkey, rfl⟩, rfl⟩
    cases hm : firstMax (seriesRows rows r.series_id) with
    | none =>
      exfalso
      have hnil : seriesRows rows r.series_id = [] := (firstMax_eq_none_iff _).1 hm
      rw [hnil] at hsr
      exact List.not_mem_nil _ hsr
    | some m =>
      refine ⟨m.1, m.2, ?_⟩
      unfold best_years
      rw [List.mem_filterMap]
      refine ⟨r.series_id, hsid, ?_⟩
      rw [hm]
  · unfold best_years
    rw [List.pairwise_filterMap]
    refine List.Pairwise.imp_of_mem ?_ (q2SeriesIds_pairwise rows)
    intro a b _ _ hab x hx y hy
    cases hma : firstMax (seriesRows rows a) with
    | none =>
      rw [hma] at hx
      simp at hx
    | some m =>
      rw [hma] at hx
      simp at hx
      cases hmb : firstMax (seriesRows rows b) with
      | none =>
        rw [hmb] at hy
        simp at hy
      | some m2 =>
        rw [hmb] at hy
        simp at hy
        rw [← hx, ← hy]
        exact hab
  · have hkeys : q2Keys q2ExampleRows = [("S1", 2019), ("S1", 2020)] := by decide
    have hys : yearly_sums q2ExampleRows
        = [("S1", 2019, (30 : ℚ)), ("S1", 2020, (5 : ℚ))] := by
      rw [yearly_sums, hkeys]
      norm_num [q2GroupSum, q2ExampleRows]
    have hsr1 : seriesRows q2ExampleRows "S1"
        = [((2019 : Int), (30 : ℚ)), ((2020 : Int), (5 : ℚ))] := by
      simp only [seriesRows, hys]
      norm_num
    have hfm : firstMax [((2019 : Int), (30 : ℚ)), ((2020 : Int), (5 : ℚ))]
        = some (2019, 30) := by
      norm_num [firstMax]
    have hbest : best_years q2ExampleRows = [("S1", 2019, (30 : ℚ))] := by
      simp only [best_years, q2SeriesIds, hys]
      norm_num [List.filterMap_cons, hsr1, hfm]
    rw [analyze_q2_best_years, if_neg (by norm_num [q2ExampleRows]), hbest]
    rfl

/-- C5 witness: the theorem applied to the three-row example table. -/
theorem c5_q2_best_years_witness :
    analyze_q2_best_years q2ExampleRows = Q2Result.report 1 [("S1", 2019, 30)] := by
  have h := c5_q2_best_years q2ExampleRows (by decide)
  exact h.2.2.2.2.2.2

end Pipeline

namespace Pipeline

/-! ### Snapshot Writer and the population loading path
(`save_population_to_s3`, pullDataFromApi.py:235-267 and
`load_population_data`, Report.py:46-75)

A stored object is modelled by its key, its storage-reported
last-modified timestamp, and its JSON content. `json.dumps` / `json.loads`
— the byte-level codec, an external library collaborator — is modelled as
content-preserving, so `put_object` stores the JSON value itself and
`get_object` returns it; object keys in a parsed JSON document are unique
(Python dict semantics), so field lookup takes the first match. -/

/-- A JSON value. -/
inductive Json where
  | null
  | bool (b : Bool)
  | num (q : ℚ)
  | str (s : String)
  | arr (xs : List Json)
  | obj (fields : List (String × Json))

/-- One stored object with its storage metadata. -/
structure S3Object where
  key : String
  lastModified : Int
  body : Json

/-- Embedding of `save_population_to_s3`: build the timestamped key
`prefix.rstrip('/') + "/population_" + ts + ".json"`, put the payload
there, and return the new store and the key. -/
def save_population_to_s3 (store : List S3Object) (pfx ts : String) (now : Int)
    (data : Json) : List S3Object × String :=
  (store ++ [⟨rstripSlash pfx ++ "/population_" ++ ts ++ ".json", now, data⟩],
   rstripSlash pfx ++ "/population_" ++ ts ++ ".json")

/-- `sorted(contents, key=lastModified)[-1]` picks the maximal
last-modified object, later listing position winning ties; folding with
this step function computes exactly that. -/
def laterOf (best o : S3Object) : S3Object :=
  if best.lastModified ≤ o.lastModified then o else best

/-- Python `"data" in pop_json` when `pop_json` is a list: membership of
the string element. -/
def isStrData : Json → Bool
  | Json.str s => s == "data"
  | _ => false

/-- The shape dispatch of `load_population_data` (Report.py:66-72): an
object with a `data` array yields its elements; a bare array yields its
elements (indexing a list with `'data'` would raise, hence `none` when the
string `"data"` is an element); a bare object becomes a single-row table;
remaining shapes (scalar payloads, non-array `data`) are failures of the
surrounding pandas call and are not modelled further. -/
def jsonRows : Json → Option (List Json)
  | Json.obj fields =>
    if fields.any (fun f => f.1 == "data") then
      match fields.lookup "data" with
      | some (Json.arr xs) => some xs
      | _ => none
    else some [Json.obj fields]
  | Json.arr xs => if xs.any isStrData then none else some xs
  | _ => none

/-- Embedding of `load_population_data`: list the objects under the
population prefix, return an empty table when there are none, otherwise
parse the most recently modified object. -/
def load_population_data (store : List S3Object) (pfx : String) :
    Option (List Json) :=
  match store.filter (fun o => startsWith o.key pfx) with
  | [] => some []
  | c :: rest => jsonRows ((rest.foldl laterOf c).body)

/-- The fold keeps the timestamp below any strict bound on its inputs. -/
theorem foldl_laterOf_lm_lt {now : Int} :
    ∀ (l : List S3Object) (b : S3Object), b.lastModified < now →
      (∀ o ∈ l, o.lastModified < now) →
      (l.foldl laterOf b).lastModified < now := by
  intro l
  induction l with
  | nil =>
    intro b hb _
    exact hb
  | cons o rest ih =>
    intro b hb hl
    rw [List.foldl_cons]
    apply ih
    · unfold laterOf
      by_cases h : b.lastModified ≤ o.lastModified
      · rw [if_pos h]
        exact hl o (List.mem_cons_self o rest)
      · rw [if_neg h]
        exact hb
    · intro z hz
      exact hl z (List.mem_cons_of_mem o hz)

/-- The fold step keeps the newer object. -/
theorem laterOf_eq_right {b o : S3Object} (h : b.lastModified ≤ o.lastModified) :
    laterOf b o = o := by
  unfold laterOf
  rw [if_pos h]

/-- A successful lookup means some field bears the key. -/
theorem lookup_some_any {fields : List (String × Json)} {v : Json}
    (h : fields.lookup "data" = some v) :
    fields.any (fun f => f.1 == "data") = true := by
  induction fields with
  | nil => simp [List.lookup] at h
  | cons f rest ih =>
    obtain ⟨k, w⟩ := f
    rw [List.lookup] at h
    rw [List.any_cons, Bool.or_eq_true]
    by_cases hk : ("data" : String) == k
    · left
      have hke : k = "data" := (beq_iff_eq.1 hk).symm
      rw [hke]
      simp
    · right
      apply ih
      simpa [hk] using h

/-- C8: writing a payload whose `data` field is an array with the
Snapshot Writer and reading the store back through the population loading
path returns exactly that array, whenever the new snapshot is strictly
newer than everything already stored and its key lies under the listed
prefix. -/
theorem c8_snapshot_round_trip (store : List S3Object) (pfx ts : String) (now : Int)
    (fields : List (String × Json)) (dataArr : List Json)
    (hdata : fields.lookup "data" = some (Json.arr dataArr))
    (hfresh : ∀ o ∈ store, o.lastModified < now)
    (hkey : startsWith (rstripSlash pfx ++ "/population_" ++ ts ++ ".json") pfx = true) :
    load_population_data
        (save_population_to_s3 store pfx ts now (Json.obj fields)).1 pfx
      = some dataArr := by
  have hrows : jsonRows (Json.obj fields) = some dataArr := by
    simp only [jsonRows]
    rw [if_pos (lookup_some_any hdata), hdata]
  unfold save_population_to_s3 load_population_data
  rw [List.filter_append]
  have hkeep : List.filter (fun o => startsWith o.key pfx)
      [(⟨rstripSlash pfx ++ "/population_" ++ ts ++ ".json", now,
        Json.obj fields⟩ : S3Object)]
      = [⟨rstripSlash pfx ++ "/population_" ++ ts ++ ".json", now, Json.obj fields⟩] := by
    rw [List.filter_cons]
    simp [hkey]
  rw [hkeep]
  cases hsf : List.filter (fun o => startsWith o.key pfx) store with
  | nil =>
    rw [List.nil_append]
    exact hrows
  | cons c rest =>
    rw [List.cons_append]
    show jsonRows
        (((rest ++ [(⟨rstripSlash pfx ++ "/population_" ++ ts ++ ".json", now,
          Json.obj fields⟩ : S3Object)]).foldl laterOf c).body) = some dataArr
    have hmemstore : ∀ z, z ∈ List.filter (fun o => startsWith o.key pfx) store →
        z.lastModified < now := by
      intro z hz
      exact hfresh z (List.mem_filter.1 hz).1
    have hc : c.lastModified < now := by
      apply hmemstore
      rw [hsf]
      exact List.mem_cons_self c rest
    have hrest : ∀ z ∈ rest, z.lastModified < now := by
      intro z hz
      apply hmemstore
      rw [hsf]
      exact List.mem_cons_of_mem c hz
    have hlast : (rest ++ [(⟨rstripSlash pfx ++ "/population_" ++ ts ++ ".json", now,
        Json.obj fields⟩ : S3Object)]).foldl laterOf c
        = ⟨rstripSlash pfx ++ "/population_" ++ ts ++ ".json", now, Json.obj fields⟩ := by
      rw [List.foldl_append, List.foldl_cons, List.foldl_nil]
      exact laterOf_eq_right (le_of_lt (foldl_laterOf_lm_lt rest c hc hrest))
    rw [hlast]
    exact hrows

/-- C8 witness: an empty store, prefix `p/`, timestamp tag `t`, and the
payload whose `data` array is `[1]`. -/
theorem c8_snapshot_round_trip_witness :
    load_population_data
        (save_population_to_s3 [] "p/" "t" 0
          (Json.obj [("data", Json.arr [Json.num 1])])).1 "p/"
      = some [Json.num 1] :=
  c8_snapshot_round_trip [] "p/" "t" 0 [("data", Json.arr [Json.num 1])] [Json.num 1]
    rfl (by simp) (by decide)

end Pipeline
